import Mathlib

/-!
# Verification of the soauth authentication and session-lifecycle engine

A shallow embedding of the core of `soauth` (an identity provider issuing
signed access tokens and rotating refresh tokens), together with proofs of
the specification's claims about it.

The embedding covers:

* the refresh ledger (`soauth/service/refresh.py`): `expire_refresh_keys`,
  `create_refresh_key`, `refresh_refresh_key`, `expire_refresh_key_by_id`,
  plus the `used`-counter touch performed by `create_auth_key`
  (`soauth/service/auth.py`);
* the token codec (`soauth/core/tokens.py`): `sign_payload` and
  `reconstruct_payload`, over a model of PyJWT's encode/decode with its
  documented exception taxonomy;
* the login handshake (`soauth/service/login.py` and the `/code` endpoint in
  `soauth/api/login.py`);
* the credential hasher (`soauth/core/hashing.py`);
* grant resolution (`soauth/database/user.py`).

Database rows are embedded as structures, tables as lists of rows, and each
service function as a pure function from the table state (plus the values the
Python code obtains from its environment: the current time `datetime.now`,
fresh UUIDs from `uuid7()`, and settings) to a result and a new table state.
Fallible functions return `Except`; because every service call runs inside a
session transaction that is rolled back when an exception escapes, an
`Except.error` outcome leaves the durable table state unchanged.  Timestamps
are integers (Unix seconds) and UUIDs are natural numbers.
-/

namespace Soauth

/-- One row of the `refreshkey` table (`soauth/database/auth.py`,
class `RefreshKey`).  `refresh_key_id` is the primary key. -/
structure RefreshKey where
  refresh_key_id : Nat
  user_id : Nat
  app_id : Nat
  hash_algorithm : String
  hashed_content : String
  api_key : Bool
  last_used : Int
  used : Nat
  revoked : Bool
  previous : Option Nat
  created_at : Int
  expires_at : Int
deriving DecidableEq, Repr

/-- The transformation applied by `expire_refresh_keys`
(`soauth/service/refresh.py`) to each row: the query selects rows with
matching `user_id` and `app_id` that are not revoked and not API keys, and
the loop sets `last_used = now` and `revoked = True` on each selected row.
Rows not selected are untouched. -/
def expireKeyTouch (u a : Nat) (now : Int) (k : RefreshKey) : RefreshKey :=
  if k.user_id = u ∧ k.app_id = a ∧ k.revoked = false ∧ k.api_key = false then
    { k with last_used := now, revoked := true }
  else k

/-- `expire_refresh_keys(user, app, conn)` from `soauth/service/refresh.py`:
revokes every non-revoked, non-API-key refresh key of the (user, app) pair. -/
def expire_refresh_keys (u a : Nat) (now : Int) (ledger : List RefreshKey) :
    List RefreshKey :=
  ledger.map (expireKeyTouch u a now)

/-- `create_refresh_key(user, app, api_key, settings, conn)` from
`soauth/service/refresh.py`.  Environment inputs made explicit: `now` is
`datetime.now(timezone.utc)` used by `build_refresh_key_payload` for
`iat`/`nbf`, `validity` is `settings.refresh_key_expiry` (so
`exp = now + validity`), `newId` is the `uuid7()` drawn for the payload's
`uuid` claim, `halg` is `settings.hash_algorithm` and `chash` the checksum of
the signed content.  If `api_key` is false it first calls
`expire_refresh_keys`, then persists a fresh row. -/
def create_refresh_key (u a : Nat) (api_key : Bool) (now validity : Int)
    (newId : Nat) (halg chash : String) (ledger : List RefreshKey) :
    RefreshKey × List RefreshKey :=
  let ledger1 :=
    if api_key = false then expire_refresh_keys u a now ledger else ledger
  let rk : RefreshKey := {
    refresh_key_id := newId
    user_id := u
    app_id := a
    hash_algorithm := halg
    hashed_content := chash
    api_key := api_key
    last_used := now
    used := 0
    revoked := false
    previous := none
    created_at := now
    expires_at := now + validity }
  (rk, ledger1 ++ [rk])

/-- The claims of a presented refresh token that `refresh_refresh_key`
inspects: the `uuid` claim (the ledger row's primary key) and the `user_id`
claim. -/
structure RefreshClaims where
  uuid : Nat
  user_id : Nat
deriving DecidableEq, Repr

/-- The in-place update `refresh_refresh_key` performs on the prior row
`res`: `res.revoked = True`, `res.used += 1`, `res.last_used = create_time`
(the new payload's `iat`, i.e. `now`).  Since `conn.get` fetched `res` by
primary key, the update is applied to the row whose `refresh_key_id` equals
the presented `uuid` claim. -/
def revokeRotatedTouch (uuid : Nat) (now : Int) (k : RefreshKey) : RefreshKey :=
  if k.refresh_key_id = uuid then
    { k with revoked := true, used := k.used + 1, last_used := now }
  else k

/-- `refresh_refresh_key(payload, settings, conn, log, provider)` from
`soauth/service/refresh.py`.  Checks, in source order: the row named by the
`uuid` claim exists (`AuthorizationError` otherwise), is not revoked, and its
stored `user_id` equals the payload's `user_id` claim.  On success it builds
`refresh_refresh_key_payload` (fresh `uuid = newId`, `iat = nbf = now`,
`exp` carried over), signs it, persists a new row whose `previous` points at
the old row and whose `expires_at` is the old row's `expires_at`, and applies
`revokeRotatedTouch` to the old row.  After persisting, the source re-reads
the user (`user_service.read_by_id`), raising `AuthorizationError` when the
user row is gone; `users` is the set of existing user ids.  An error outcome
aborts the surrounding transaction, so no state is returned with it.
(`provider.refresh`, the external GitHub round-trip, and the `App` row used
for signing are outside the ledger and not modelled.) -/
def refresh_refresh_key (claims : RefreshClaims) (now : Int) (newId : Nat)
    (halg chash : String) (users : List Nat) (ledger : List RefreshKey) :
    Except String (RefreshKey × List RefreshKey) :=
  match ledger.find? (fun k => k.refresh_key_id = claims.uuid) with
  | none => .error "Prior key not found"
  | some res =>
    if res.revoked = true then .error "Key used for refresh has been revoked"
    else if claims.user_id ≠ res.user_id then
      .error "User ID does not match database"
    else
      let refresh_key : RefreshKey := {
        refresh_key_id := newId
        user_id := res.user_id
        app_id := res.app_id
        hash_algorithm := halg
        hashed_content := chash
        api_key := res.api_key
        last_used := now
        used := 0
        revoked := false
        previous := some res.refresh_key_id
        created_at := now
        expires_at := res.expires_at }
      let ledger1 := (ledger.map (revokeRotatedTouch claims.uuid now)) ++
        [refresh_key]
      if res.user_id ∈ users then .ok (refresh_key, ledger1)
      else .error "User not found"

/-- The durable effect of `refresh_refresh_key` on the ledger: the new table
state on success, the unchanged table on error (the session transaction rolls
back when `AuthorizationError` escapes). -/
def refreshStep (claims : RefreshClaims) (now : Int) (newId : Nat)
    (halg chash : String) (users : List Nat) (ledger : List RefreshKey) :
    List RefreshKey :=
  match refresh_refresh_key claims now newId halg chash users ledger with
  | .ok (_, ledger1) => ledger1
  | .error _ => ledger

/-- `expire_refresh_key_by_id(key_id, conn)` from
`soauth/service/refresh.py`: a no-op when the row is missing or already
revoked; otherwise stamps `last_used = now` and sets `revoked = True` on the
row with that primary key. -/
def expire_refresh_key_by_id (key_id : Nat) (now : Int)
    (ledger : List RefreshKey) : List RefreshKey :=
  match ledger.find? (fun k => k.refresh_key_id = key_id) with
  | none => ledger
  | some res =>
    if res.revoked = true then ledger
    else ledger.map fun k =>
      if k.refresh_key_id = key_id then
        { k with last_used := now, revoked := true }
      else k

/-- The ledger side effect of `create_auth_key` (`soauth/service/auth.py`)
when minting an access token: `refresh_key.used += 1` on the row it was
handed. -/
def mint_access_touch (key_id : Nat) (ledger : List RefreshKey) :
    List RefreshKey :=
  ledger.map fun k =>
    if k.refresh_key_id = key_id then { k with used := k.used + 1 } else k

/-- One durable transition of the `refreshkey` table, covering every writer
of that table in the source: `create_refresh_key` (login and API-key
issuance), `refresh_refresh_key` (rotation; no-op on denial because the
transaction rolls back), `expire_refresh_keys`, `expire_refresh_key_by_id`
(logout / admin revocation), the `used`-counter touch of `create_auth_key`,
and the `ondelete="CASCADE"` row deletion triggered by deleting the owning
user or app (`soauth/database/auth.py`).  The `hfresh` side conditions state
that the `uuid7()` drawn for a new row differs from every existing primary
key — the database enforces primary-key uniqueness on insert. -/
inductive Step : List RefreshKey → List RefreshKey → Prop
  | create (u a : Nat) (api_key : Bool) (now validity : Int) (newId : Nat)
      (halg chash : String) (st : List RefreshKey)
      (hfresh : ∀ k ∈ st, k.refresh_key_id ≠ newId) :
      Step st (create_refresh_key u a api_key now validity newId halg chash st).2
  | refresh (claims : RefreshClaims) (now : Int) (newId : Nat)
      (halg chash : String) (users : List Nat) (st : List RefreshKey)
      (hfresh : ∀ k ∈ st, k.refresh_key_id ≠ newId) :
      Step st (refreshStep claims now newId halg chash users st)
  | expire_keys (u a : Nat) (now : Int) (st : List RefreshKey) :
      Step st (expire_refresh_keys u a now st)
  | expire_by_id (key_id : Nat) (now : Int) (st : List RefreshKey) :
      Step st (expire_refresh_key_by_id key_id now st)
  | mint (key_id : Nat) (st : List RefreshKey) :
      Step st (mint_access_touch key_id st)
  | delete_user_cascade (u : Nat) (st : List RefreshKey) :
      Step st (st.filter (fun k => ¬ k.user_id = u))
  | delete_app_cascade (a : Nat) (st : List RefreshKey) :
      Step st (st.filter (fun k => ¬ k.app_id = a))

/-- Ledger states reachable from the empty table through the writers above. -/
inductive Reach : List RefreshKey → Prop
  | init : Reach []
  | step {st st' : List RefreshKey} : Reach st → Step st st' → Reach st'

/-- A non-revoked, non-API-key ("web session") row for the (user, app)
pair. -/
def isActiveWebKey (u a : Nat) (k : RefreshKey) : Bool :=
  k.user_id = u && k.app_id = a && !k.revoked && !k.api_key

/-- The number of active web-session rows for a (user, app) pair — the
quantity the singleton-session policy bounds. -/
def webCount (u a : Nat) (st : List RefreshKey) : Nat :=
  st.countP (isActiveWebKey u a)

end Soauth

namespace Soauth

/-- Unfolding of the active-web-session predicate. -/
lemma isActiveWebKey_iff (u a : Nat) (k : RefreshKey) :
    isActiveWebKey u a k = true ↔
      (k.user_id = u ∧ k.app_id = a ∧ k.revoked = false ∧ k.api_key = false) := by
  simp [isActiveWebKey, and_assoc]

/-- Mapping a row transformation that never turns the predicate on cannot
increase a `countP`. -/
lemma countP_map_le {α : Type} (p : α → Bool) (g : α → α)
    (h : ∀ x, p (g x) = true → p x = true) (l : List α) :
    (l.map g).countP p ≤ l.countP p := by
  rw [List.countP_map]
  exact List.countP_mono_left (fun x _ hx => h x hx)

/-- If in addition some list member satisfies the predicate but its image
does not, the `countP` strictly decreases. -/
lemma countP_map_lt {α : Type} (p : α → Bool) (g : α → α)
    (h : ∀ x, p (g x) = true → p x = true) {l : List α} {x : α}
    (hx : x ∈ l) (hpx : p x = true) (hgx : p (g x) = false) :
    (l.map g).countP p < l.countP p := by
  induction l with
  | nil => cases hx
  | cons y t ih =>
    rcases List.mem_cons.mp hx with rfl | hmem
    · have hle := countP_map_le p g h t
      have e1 : (if p (g x) = true then 1 else 0) = 0 := by simp [hgx]
      have e2 : (if p x = true then 1 else 0) = 1 := by simp [hpx]
      rw [List.map_cons, List.countP_cons, List.countP_cons, e1, e2]
      omega
    · by_cases hy : p (g y) = true
      · have hpy := h y hy
        simp only [List.map_cons, List.countP_cons, hy, hpy]
        exact Nat.add_lt_add_right (ih hmem) 1
      · have hlt := ih hmem
        have e1 : (if p (g y) = true then 1 else 0) = 0 := by simp [hy]
        rw [List.map_cons, List.countP_cons, List.countP_cons, e1]
        omega

/-- `expireKeyTouch` never turns a row into an active web session. -/
lemma expireKeyTouch_active (u a : Nat) (now : Int) (u' a' : Nat)
    (k : RefreshKey) :
    isActiveWebKey u' a' (expireKeyTouch u a now k) = true →
      isActiveWebKey u' a' k = true := by
  unfold expireKeyTouch
  split
  · intro hk
    rw [isActiveWebKey_iff] at hk
    simp at hk
  · exact id

/-- `revokeRotatedTouch` never turns a row into an active web session. -/
lemma revokeRotatedTouch_active (uuid : Nat) (now : Int) (u' a' : Nat)
    (k : RefreshKey) :
    isActiveWebKey u' a' (revokeRotatedTouch uuid now k) = true →
      isActiveWebKey u' a' k = true := by
  unfold revokeRotatedTouch
  split
  · intro hk
    rw [isActiveWebKey_iff] at hk
    simp at hk
  · exact id

/-- After `expire_refresh_keys`, the (user, app) pair has no active web
session at all. -/
lemma webCount_expire_self (u a : Nat) (now : Int) (st : List RefreshKey) :
    webCount u a (expire_refresh_keys u a now st) = 0 := by
  apply List.countP_eq_zero.mpr
  intro k hk
  rcases List.mem_map.mp hk with ⟨k0, _, rfl⟩
  unfold expireKeyTouch
  split
  · rw [Bool.not_eq_true, ← Bool.not_eq_true, isActiveWebKey_iff]
    simp
  · rename_i hcond
    rw [Bool.not_eq_true, ← Bool.not_eq_true, isActiveWebKey_iff]
    intro hk0
    exact hcond ⟨hk0.1, hk0.2.1, hk0.2.2.1, hk0.2.2.2⟩

/-- `expire_refresh_keys` never increases any pair's active-session count. -/
lemma webCount_expire_le (u a u' a' : Nat) (now : Int)
    (st : List RefreshKey) :
    webCount u' a' (expire_refresh_keys u a now st) ≤ webCount u' a' st :=
  countP_map_le _ _ (expireKeyTouch_active u a now u' a') st

end Soauth

namespace Soauth

/-- `create_refresh_key` keeps every pair's active web-session count at most
one: for the pair it creates for, it first revokes everything (when not an
API key), and an API key never counts. -/
lemma create_webCount_le (u a : Nat) (api : Bool) (now validity : Int)
    (newId : Nat) (halg chash : String) (st : List RefreshKey)
    (ih : ∀ u a, webCount u a st ≤ 1) (u' a' : Nat) :
    webCount u' a'
      (create_refresh_key u a api now validity newId halg chash st).2 ≤ 1 := by
  unfold create_refresh_key
  cases api with
  | true =>
    have happ :
        webCount u' a' (st ++
          [{ refresh_key_id := newId, user_id := u, app_id := a,
             hash_algorithm := halg, hashed_content := chash, api_key := true,
             last_used := now, used := 0, revoked := false, previous := none,
             created_at := now, expires_at := now + validity }]) =
        webCount u' a' st + webCount u' a'
          [{ refresh_key_id := newId, user_id := u, app_id := a,
             hash_algorithm := halg, hashed_content := chash, api_key := true,
             last_used := now, used := 0, revoked := false, previous := none,
             created_at := now, expires_at := now + validity }] :=
      List.countP_append _ _ _
    simp only [if_neg (by decide : ¬ (true = false))]
    rw [happ]
    have h1 : webCount u' a'
        [{ refresh_key_id := newId, user_id := u, app_id := a,
           hash_algorithm := halg, hashed_content := chash, api_key := true,
           last_used := now, used := 0, revoked := false, previous := none,
           created_at := now, expires_at := now + validity }] = 0 := by
      simp [webCount, List.countP_cons, isActiveWebKey]
    rw [h1]
    simpa using ih u' a'
  | false =>
    simp only [eq_self_iff_true, if_true]
    have happ :
        webCount u' a' (expire_refresh_keys u a now st ++
          [{ refresh_key_id := newId, user_id := u, app_id := a,
             hash_algorithm := halg, hashed_content := chash, api_key := false,
             last_used := now, used := 0, revoked := false, previous := none,
             created_at := now, expires_at := now + validity }]) =
        webCount u' a' (expire_refresh_keys u a now st) + webCount u' a'
          [{ refresh_key_id := newId, user_id := u, app_id := a,
             hash_algorithm := halg, hashed_content := chash, api_key := false,
             last_used := now, used := 0, revoked := false, previous := none,
             created_at := now, expires_at := now + validity }] :=
      List.countP_append _ _ _
    rw [happ]
    by_cases hpair : u = u' ∧ a = a'
    · obtain ⟨rfl, rfl⟩ := hpair
      have h0 := webCount_expire_self u a now st
      have h1 : webCount u a
          [{ refresh_key_id := newId, user_id := u, app_id := a,
             hash_algorithm := halg, hashed_content := chash, api_key := false,
             last_used := now, used := 0, revoked := false, previous := none,
             created_at := now, expires_at := now + validity }] ≤ 1 := by
        simpa using List.countP_le_length (isActiveWebKey u a)
      omega
    · have h1 : webCount u' a'
          [{ refresh_key_id := newId, user_id := u, app_id := a,
             hash_algorithm := halg, hashed_content := chash, api_key := false,
             last_used := now, used := 0, revoked := false, previous := none,
             created_at := now, expires_at := now + validity }] = 0 := by
        simp only [webCount, List.countP_cons, List.countP_nil]
        have : isActiveWebKey u' a'
            { refresh_key_id := newId, user_id := u, app_id := a,
              hash_algorithm := halg, hashed_content := chash,
              api_key := false, last_used := now, used := 0, revoked := false,
              previous := none, created_at := now,
              expires_at := now + validity } = false := by
          rw [← Bool.not_eq_true, isActiveWebKey_iff]
          intro hc
          exact hpair ⟨hc.1, hc.2.1⟩
        rw [this]
        simp
      have h2 := webCount_expire_le u a u' a' now st
      have h3 := ih u' a'
      omega

end Soauth

namespace Soauth

/-- Rotation keeps every pair's active web-session count at most one: the
prior row was active and is revoked in the same transaction that persists the
replacement. -/
lemma refresh_webCount_le (claims : RefreshClaims) (now : Int) (newId : Nat)
    (halg chash : String) (users : List Nat) (st : List RefreshKey)
    (ih : ∀ u a, webCount u a st ≤ 1) (u' a' : Nat) :
    webCount u' a' (refreshStep claims now newId halg chash users st) ≤ 1 := by
  unfold refreshStep
  cases heq : refresh_refresh_key claims now newId halg chash users st with
  | error e => exact ih u' a'
  | ok pr =>
    obtain ⟨rk, l1⟩ := pr
    show webCount u' a' l1 ≤ 1
    unfold refresh_refresh_key at heq
    cases hfind : st.find? (fun k => k.refresh_key_id = claims.uuid) with
    | none =>
      simp only [hfind] at heq
      cases heq
    | some res =>
      simp only [hfind] at heq
      by_cases hrev : res.revoked = true
      · rw [if_pos hrev] at heq
        cases heq
      · rw [if_neg hrev] at heq
        by_cases hne : claims.user_id ≠ res.user_id
        · rw [if_pos hne] at heq
          cases heq
        · rw [if_neg hne] at heq
          by_cases hmem : res.user_id ∈ users
          · rw [if_pos hmem] at heq
            injection heq with heq2
            injection heq2 with hrk hl1
            subst hl1
            have hresMem := List.mem_of_find?_eq_some hfind
            have hresId : res.refresh_key_id = claims.uuid := by
              have := List.find?_some hfind
              simpa using this
            have hrevF : res.revoked = false := by
              revert hrev
              cases res.revoked <;> simp
            have happ :
                webCount u' a'
                  (st.map (revokeRotatedTouch claims.uuid now) ++
                    [{ refresh_key_id := newId, user_id := res.user_id,
                       app_id := res.app_id, hash_algorithm := halg,
                       hashed_content := chash, api_key := res.api_key,
                       last_used := now, used := 0, revoked := false,
                       previous := some res.refresh_key_id, created_at := now,
                       expires_at := res.expires_at }]) =
                webCount u' a' (st.map (revokeRotatedTouch claims.uuid now)) +
                webCount u' a'
                  [{ refresh_key_id := newId, user_id := res.user_id,
                     app_id := res.app_id, hash_algorithm := halg,
                     hashed_content := chash, api_key := res.api_key,
                     last_used := now, used := 0, revoked := false,
                     previous := some res.refresh_key_id, created_at := now,
                     expires_at := res.expires_at }] :=
              List.countP_append _ _ _
            rw [happ]
            by_cases hweb : isActiveWebKey u' a'
                { refresh_key_id := newId, user_id := res.user_id,
                  app_id := res.app_id, hash_algorithm := halg,
                  hashed_content := chash, api_key := res.api_key,
                  last_used := now, used := 0, revoked := false,
                  previous := some res.refresh_key_id, created_at := now,
                  expires_at := res.expires_at } = true
            · rw [isActiveWebKey_iff] at hweb
              have hpres : isActiveWebKey u' a' res = true := by
                rw [isActiveWebKey_iff]
                exact ⟨hweb.1, hweb.2.1, hrevF, hweb.2.2.2⟩
              have hpg : isActiveWebKey u' a'
                  (revokeRotatedTouch claims.uuid now res) = false := by
                unfold revokeRotatedTouch
                rw [if_pos hresId]
                rw [← Bool.not_eq_true, isActiveWebKey_iff]
                simp
              have hlt : webCount u' a'
                    (st.map (revokeRotatedTouch claims.uuid now)) <
                  webCount u' a' st :=
                countP_map_lt _ _
                  (revokeRotatedTouch_active claims.uuid now u' a')
                  hresMem hpres hpg
              have hone : webCount u' a'
                  [{ refresh_key_id := newId, user_id := res.user_id,
                     app_id := res.app_id, hash_algorithm := halg,
                     hashed_content := chash, api_key := res.api_key,
                     last_used := now, used := 0, revoked := false,
                     previous := some res.refresh_key_id, created_at := now,
                     expires_at := res.expires_at }] ≤ 1 := by
                simpa using List.countP_le_length (isActiveWebKey u' a')
              have hst := ih u' a'
              omega
            · have h0 : webCount u' a'
                  [{ refresh_key_id := newId, user_id := res.user_id,
                     app_id := res.app_id, hash_algorithm := halg,
                     hashed_content := chash, api_key := res.api_key,
                     last_used := now, used := 0, revoked := false,
                     previous := some res.refresh_key_id, created_at := now,
                     expires_at := res.expires_at }] = 0 := by
                simp only [webCount, List.countP_cons, List.countP_nil]
                rw [Bool.not_eq_true] at hweb
                rw [hweb]
                simp
              have hle : webCount u' a'
                    (st.map (revokeRotatedTouch claims.uuid now)) ≤
                  webCount u' a' st :=
                countP_map_le _ _
                  (revokeRotatedTouch_active claims.uuid now u' a') st
              have hst := ih u' a'
              omega
          · rw [if_neg hmem] at heq
            cases heq

/-- `expire_refresh_key_by_id` never increases any pair's active-session
count. -/
lemma expire_by_id_webCount_le (key_id : Nat) (now : Int)
    (st : List RefreshKey) (ih : ∀ u a, webCount u a st ≤ 1) (u' a' : Nat) :
    webCount u' a' (expire_refresh_key_by_id key_id now st) ≤ 1 := by
  unfold expire_refresh_key_by_id
  split
  · exact ih u' a'
  · split
    · exact ih u' a'
    · have hle : webCount u' a'
          (st.map fun k =>
            if k.refresh_key_id = key_id then
              { k with last_used := now, revoked := true }
            else k) ≤
          webCount u' a' st := by
        apply countP_map_le
        intro x hx
        by_cases hid : x.refresh_key_id = key_id
        · rw [if_pos hid] at hx
          rw [isActiveWebKey_iff] at hx
          simp at hx
        · rw [if_neg hid] at hx
          exact hx
      have hst := ih u' a'
      omega

/-- The `used`-counter touch of access-token minting does not change which
rows are active web sessions. -/
lemma mint_webCount_le (key_id : Nat) (st : List RefreshKey)
    (ih : ∀ u a, webCount u a st ≤ 1) (u' a' : Nat) :
    webCount u' a' (mint_access_touch key_id st) ≤ 1 := by
  unfold mint_access_touch
  have hle : webCount u' a'
        (st.map fun k =>
          if k.refresh_key_id = key_id then { k with used := k.used + 1 }
          else k) ≤
      webCount u' a' st := by
    apply countP_map_le
    intro x hx
    by_cases hid : x.refresh_key_id = key_id
    · rw [if_pos hid] at hx
      exact hx
    · rw [if_neg hid] at hx
      exact hx
  have hst := ih u' a'
  omega

/-- A single durable transition preserves the singleton bound. -/
lemma step_webCount_le {st st' : List RefreshKey} (hs : Step st st')
    (ih : ∀ u a, webCount u a st ≤ 1) : ∀ u a, webCount u a st' ≤ 1 :=
  match hs with
  | .create u a api_key now validity newId halg chash _ _ =>
      create_webCount_le u a api_key now validity newId halg chash _ ih
  | .refresh claims now newId halg chash users _ _ =>
      refresh_webCount_le claims now newId halg chash users _ ih
  | .expire_keys u a now _ => fun u' a' => by
      have h1 := webCount_expire_le u a u' a' now st
      have h2 := ih u' a'
      omega
  | .expire_by_id key_id now _ =>
      expire_by_id_webCount_le key_id now _ ih
  | .mint key_id _ =>
      mint_webCount_le key_id _ ih
  | .delete_user_cascade u _ => fun u' a' => by
      have h1 : webCount u' a' (st.filter fun k => ¬ k.user_id = u) ≤
          webCount u' a' st :=
        (List.filter_sublist st).countP_le _
      have h2 := ih u' a'
      omega
  | .delete_app_cascade a _ => fun u' a' => by
      have h1 : webCount u' a' (st.filter fun k => ¬ k.app_id = a) ≤
          webCount u' a' st :=
        (List.filter_sublist st).countP_le _
      have h2 := ih u' a'
      omega

/-- **C1, singleton-session invariant** (spec §4.5, §8 "Singleton
invariant"): `create_refresh_key` with `api_key=false` first revokes, via
`expire_refresh_keys`, every currently non-revoked, non-API-key record of
the (user, app) pair, and in every ledger state reachable through the
table's writers — creation, rotation, revocations, the access-mint counter
touch, and cascade deletes — every (user, app) pair has at most one
non-revoked, non-API-key refresh record. -/
theorem singleton_session_invariant {st : List RefreshKey} (h : Reach st) :
    ∀ u a, webCount u a st ≤ 1 := by
  induction h with
  | init => intro u a; simp [webCount]
  | step _ hstep ih => exact step_webCount_le hstep ih

/-- Witness for C1: a concrete reachable state (one web login followed by an
API-key creation) satisfies the singleton bound. -/
theorem singleton_session_invariant_witness :
    webCount 1 2
      (create_refresh_key 1 2 true 5 100 8 "xxh3" "h2"
        (create_refresh_key 1 2 false 0 100 7 "xxh3" "h1" []).2).2 ≤ 1 :=
  singleton_session_invariant
    (Reach.step
      (Reach.step Reach.init
        (Step.create 1 2 false 0 100 7 "xxh3" "h1" [] (by simp)))
      (Step.create 1 2 true 5 100 8 "xxh3" "h2" _ (by decide)))
    1 2

end Soauth

namespace Soauth

/-- **C2, rotation-chain postcondition** (spec §4.5 `rotate`, §8 "Rotation
chain"): for a non-revoked ledger row `res` found by the presented claims'
`uuid`, with matching stored user id (and the user row present, as the
foreign-key cascade guarantees), `refresh_refresh_key` returns a new record
whose `previous` is the old row's id, whose `expires_at`, `api_key` are
carried over from the old row, which is not revoked, and the persisted state
contains the old row updated to `revoked = true`, `used` incremented by one,
and `last_used` stamped with the rotation time. -/
theorem rotation_chain (claims : RefreshClaims) (now : Int) (newId : Nat)
    (halg chash : String) (users : List Nat) (ledger : List RefreshKey)
    (res : RefreshKey)
    (hfind : ledger.find? (fun k => k.refresh_key_id = claims.uuid) = some res)
    (hrev : res.revoked = false)
    (huid : claims.user_id = res.user_id)
    (husr : res.user_id ∈ users) :
    ∃ newKey ledger',
      refresh_refresh_key claims now newId halg chash users ledger =
        .ok (newKey, ledger') ∧
      newKey.previous = some res.refresh_key_id ∧
      newKey.expires_at = res.expires_at ∧
      newKey.api_key = res.api_key ∧
      newKey.revoked = false ∧
      { res with revoked := true, used := res.used + 1, last_used := now } ∈
        ledger' := by
  have hresId : res.refresh_key_id = claims.uuid := by
    have := List.find?_some hfind
    simpa using this
  have hnrev : ¬ res.revoked = true := by simp [hrev]
  have hne : ¬ claims.user_id ≠ res.user_id := by simp [huid]
  simp only [refresh_refresh_key, hfind, if_neg hnrev, if_neg hne,
    if_pos husr]
  refine ⟨_, _, rfl, rfl, rfl, rfl, rfl, ?_⟩
  apply List.mem_append_left
  apply List.mem_map.mpr
  refine ⟨res, List.mem_of_find?_eq_some hfind, ?_⟩
  unfold revokeRotatedTouch
  rw [if_pos hresId]

/-- Witness for C2 at a concrete one-row ledger. -/
theorem rotation_chain_witness :
    ∃ newKey ledger',
      refresh_refresh_key ⟨1, 10⟩ 50 2 "xxh3" "h2" [10]
        [{ refresh_key_id := 1, user_id := 10, app_id := 3,
           hash_algorithm := "xxh3", hashed_content := "h1", api_key := false,
           last_used := 0, used := 0, revoked := false, previous := none,
           created_at := 0, expires_at := 100 }] = .ok (newKey, ledger') ∧
      newKey.previous = some 1 ∧
      newKey.expires_at = 100 ∧
      newKey.api_key = false ∧
      newKey.revoked = false ∧
      ({ refresh_key_id := 1, user_id := 10, app_id := 3,
         hash_algorithm := "xxh3", hashed_content := "h1", api_key := false,
         last_used := 50, used := 1, revoked := true, previous := none,
         created_at := 0, expires_at := 100 } : RefreshKey) ∈ ledger' :=
  rotation_chain ⟨1, 10⟩ 50 2 "xxh3" "h2" [10]
    [{ refresh_key_id := 1, user_id := 10, app_id := 3,
       hash_algorithm := "xxh3", hashed_content := "h1", api_key := false,
       last_used := 0, used := 0, revoked := false, previous := none,
       created_at := 0, expires_at := 100 }]
    { refresh_key_id := 1, user_id := 10, app_id := 3,
      hash_algorithm := "xxh3", hashed_content := "h1", api_key := false,
      last_used := 0, used := 0, revoked := false, previous := none,
      created_at := 0, expires_at := 100 }
    rfl rfl rfl (by simp)

/-- **C3, rotation denial** (spec §4.5 `rotate`): provided every ledger
row's user still exists (the foreign-key `ondelete=CASCADE` invariant),
`refresh_refresh_key` raises `AuthorizationError` exactly when the row named
by the claims' `uuid` is missing, already revoked, or stores a different
user id than the claims carry; and whenever it errors, the durable ledger
state is unchanged (the transaction rolls back, persisting nothing). -/
theorem rotation_denial (claims : RefreshClaims) (now : Int) (newId : Nat)
    (halg chash : String) (users : List Nat) (ledger : List RefreshKey)
    (hcascade : ∀ k ∈ ledger, k.user_id ∈ users) :
    ((∃ e, refresh_refresh_key claims now newId halg chash users ledger =
        .error e) ↔
      (ledger.find? (fun k => k.refresh_key_id = claims.uuid) = none ∨
        ∃ res,
          ledger.find? (fun k => k.refresh_key_id = claims.uuid) = some res ∧
          (res.revoked = true ∨ claims.user_id ≠ res.user_id))) ∧
    (∀ e, refresh_refresh_key claims now newId halg chash users ledger =
        .error e →
      refreshStep claims now newId halg chash users ledger = ledger) := by
  constructor
  · cases hfind : ledger.find? (fun k => k.refresh_key_id = claims.uuid) with
    | none =>
      simp only [refresh_refresh_key, hfind]
      constructor
      · intro _
        exact Or.inl trivial
      · intro _
        exact ⟨"Prior key not found", rfl⟩
    | some res =>
      simp only [refresh_refresh_key, hfind]
      by_cases hrev : res.revoked = true
      · rw [if_pos hrev]
        constructor
        · intro _
          exact Or.inr ⟨res, rfl, Or.inl hrev⟩
        · intro _
          exact ⟨_, rfl⟩
      · rw [if_neg hrev]
        by_cases hne : claims.user_id ≠ res.user_id
        · rw [if_pos hne]
          constructor
          · intro _
            exact Or.inr ⟨res, rfl, Or.inr hne⟩
          · intro _
            exact ⟨_, rfl⟩
        · rw [if_neg hne]
          have hmem : res.user_id ∈ users :=
            hcascade res (List.mem_of_find?_eq_some hfind)
          rw [if_pos hmem]
          constructor
          · rintro ⟨e, he⟩
            cases he
          · rintro (h | ⟨res', hres', hbad⟩)
            · cases h
            · injection hres' with h'
              subst h'
              rcases hbad with hb | hb
              · exact absurd hb hrev
              · exact absurd hb hne
  · intro e he
    unfold refreshStep
    rw [he]

/-- Witness for C3: the empty ledger (row missing) errors and leaves the
state unchanged. -/
theorem rotation_denial_witness :
    ((∃ e, refresh_refresh_key ⟨1, 1⟩ 0 2 "xxh3" "h" [] [] = .error e) ↔
      (List.find?
          (fun k => k.refresh_key_id = (⟨1, 1⟩ : RefreshClaims).uuid)
          ([] : List RefreshKey) = none ∨
        ∃ res,
          List.find?
            (fun k => k.refresh_key_id = (⟨1, 1⟩ : RefreshClaims).uuid)
            ([] : List RefreshKey) = some res ∧
          (res.revoked = true ∨ (⟨1, 1⟩ : RefreshClaims).user_id ≠
            res.user_id))) ∧
    (∀ e, refresh_refresh_key ⟨1, 1⟩ 0 2 "xxh3" "h" [] [] = .error e →
      refreshStep ⟨1, 1⟩ 0 2 "xxh3" "h" [] [] = []) :=
  rotation_denial ⟨1, 1⟩ 0 2 "xxh3" "h" [] [] (by simp)

end Soauth

namespace Soauth

/-- Rows with equal primary keys in a table whose id column is duplicate-free
are the same row. -/
lemma nodup_ids_eq {st : List RefreshKey}
    (hnd : (st.map (fun k => k.refresh_key_id)).Nodup)
    {x y : RefreshKey} (hx : x ∈ st) (hy : y ∈ st)
    (hid : x.refresh_key_id = y.refresh_key_id) : x = y :=
  List.inj_on_of_nodup_map hnd hx hy hid

/-- An id-preserving, revocation-monotone row update keeps every revoked
row revoked (by primary key) across a `map`. -/
lemma map_preserves_revoked {st : List RefreshKey}
    (hnd : (st.map (fun k => k.refresh_key_id)).Nodup)
    (g : RefreshKey → RefreshKey)
    (hgid : ∀ x, (g x).refresh_key_id = x.refresh_key_id)
    (hgrev : ∀ x, x.revoked = true → (g x).revoked = true)
    {k : RefreshKey} (hk : k ∈ st) (hkrev : k.revoked = true)
    {k' : RefreshKey} (hk' : k' ∈ st.map g)
    (hid : k'.refresh_key_id = k.refresh_key_id) : k'.revoked = true := by
  obtain ⟨k0, hk0, rfl⟩ := List.mem_map.mp hk'
  have hk0id : k0.refresh_key_id = k.refresh_key_id := by
    rw [← hgid k0]
    exact hid
  have : k0 = k := nodup_ids_eq hnd hk0 hk hk0id
  subst this
  exact hgrev k0 hkrev

/-- `expireKeyTouch` preserves the primary key. -/
lemma expireKeyTouch_id (u a : Nat) (now : Int) (x : RefreshKey) :
    (expireKeyTouch u a now x).refresh_key_id = x.refresh_key_id := by
  unfold expireKeyTouch
  split <;> rfl

/-- `expireKeyTouch` never clears the revoked flag. -/
lemma expireKeyTouch_rev (u a : Nat) (now : Int) (x : RefreshKey)
    (h : x.revoked = true) : (expireKeyTouch u a now x).revoked = true := by
  unfold expireKeyTouch
  split
  · rfl
  · exact h

/-- `revokeRotatedTouch` preserves the primary key. -/
lemma revokeRotatedTouch_id (uuid : Nat) (now : Int) (x : RefreshKey) :
    (revokeRotatedTouch uuid now x).refresh_key_id = x.refresh_key_id := by
  unfold revokeRotatedTouch
  split <;> rfl

/-- `revokeRotatedTouch` never clears the revoked flag. -/
lemma revokeRotatedTouch_rev (uuid : Nat) (now : Int) (x : RefreshKey)
    (h : x.revoked = true) : (revokeRotatedTouch uuid now x).revoked = true := by
  unfold revokeRotatedTouch
  split
  · rfl
  · exact h

/-- In a table whose id column is duplicate-free, a revoked row stays
revoked (by primary key) across any single durable transition: no writer of
the `refreshkey` table ever clears the `revoked` flag of an existing row. -/
lemma step_preserves_revoked {st st' : List RefreshKey} (hs : Step st st')
    (hnd : (st.map (fun k => k.refresh_key_id)).Nodup)
    {k : RefreshKey} (hk : k ∈ st) (hkrev : k.revoked = true)
    {k' : RefreshKey} (hk' : k' ∈ st')
    (hid : k'.refresh_key_id = k.refresh_key_id) : k'.revoked = true := by
  cases hs with
  | create u a api_key now validity newId halg chash _ hfresh =>
    unfold create_refresh_key at hk'
    rcases List.mem_append.mp hk' with h1 | h1
    · by_cases hapi : api_key = false
      · rw [if_pos hapi] at h1
        exact map_preserves_revoked hnd (expireKeyTouch u a now)
          (expireKeyTouch_id u a now) (expireKeyTouch_rev u a now)
          hk hkrev h1 hid
      · rw [if_neg hapi] at h1
        have := nodup_ids_eq hnd h1 hk hid
        subst this
        exact hkrev
    · have hk'eq : k' = _ := List.mem_singleton.mp h1
      subst hk'eq
      exact absurd (by rw [← hid]) (hfresh k hk)
  | refresh claims now newId halg chash users _ hfresh =>
    unfold refreshStep at hk'
    cases heq : refresh_refresh_key claims now newId halg chash users st with
    | error e =>
      rw [heq] at hk'
      have := nodup_ids_eq hnd hk' hk hid
      subst this
      exact hkrev
    | ok pr =>
      obtain ⟨rk, l1⟩ := pr
      rw [heq] at hk'
      have hk'in : k' ∈ l1 := hk'
      unfold refresh_refresh_key at heq
      cases hfind : st.find? (fun j => j.refresh_key_id = claims.uuid) with
      | none =>
        simp only [hfind] at heq
        cases heq
      | some res =>
        simp only [hfind] at heq
        by_cases hrev2 : res.revoked = true
        · rw [if_pos hrev2] at heq
          cases heq
        · rw [if_neg hrev2] at heq
          by_cases hne : claims.user_id ≠ res.user_id
          · rw [if_pos hne] at heq
            cases heq
          · rw [if_neg hne] at heq
            by_cases hmem : res.user_id ∈ users
            · rw [if_pos hmem] at heq
              injection heq with heq2
              injection heq2 with hrk hl1
              subst hl1
              rcases List.mem_append.mp hk'in with h1 | h1
              · exact map_preserves_revoked hnd
                  (revokeRotatedTouch claims.uuid now)
                  (revokeRotatedTouch_id claims.uuid now)
                  (revokeRotatedTouch_rev claims.uuid now)
                  hk hkrev h1 hid
              · have hk'eq : k' = _ := List.mem_singleton.mp h1
                subst hk'eq
                exact absurd (by rw [← hid]) (hfresh k hk)
            · rw [if_neg hmem] at heq
              cases heq
  | expire_keys u a now _ =>
    exact map_preserves_revoked hnd (expireKeyTouch u a now)
      (expireKeyTouch_id u a now) (expireKeyTouch_rev u a now)
      hk hkrev hk' hid
  | expire_by_id key_id now _ =>
    unfold expire_refresh_key_by_id at hk'
    cases hfind : st.find? (fun j => j.refresh_key_id = key_id) with
    | none =>
      simp only [hfind] at hk'
      have := nodup_ids_eq hnd hk' hk hid
      subst this
      exact hkrev
    | some res =>
      simp only [hfind] at hk'
      by_cases hrev2 : res.revoked = true
      · rw [if_pos hrev2] at hk'
        have := nodup_ids_eq hnd hk' hk hid
        subst this
        exact hkrev
      · rw [if_neg hrev2] at hk'
        refine map_preserves_revoked hnd _ ?_ ?_ hk hkrev hk' hid
        · intro x
          dsimp only
          split <;> rfl
        · intro x hx
          dsimp only
          split
          · rfl
          · exact hx
  | mint key_id _ =>
    unfold mint_access_touch at hk'
    refine map_preserves_revoked hnd _ ?_ ?_ hk hkrev hk' hid
    · intro x
      dsimp only
      split <;> rfl
    · intro x hx
      dsimp only
      split
      · exact hx
      · exact hx
  | delete_user_cascade u _ =>
    have hk'st : k' ∈ st := List.mem_of_mem_filter hk'
    have := nodup_ids_eq hnd hk'st hk hid
    subst this
    exact hkrev
  | delete_app_cascade a _ =>
    have hk'st : k' ∈ st := List.mem_of_mem_filter hk'
    have := nodup_ids_eq hnd hk'st hk hid
    subst this
    exact hkrev

end Soauth

namespace Soauth

/-- Looking a row up by primary key commutes with an id-preserving row
update of the whole table. -/
lemma find?_map_id_pres (key_id : Nat) (g : RefreshKey → RefreshKey)
    (hgid : ∀ x, (g x).refresh_key_id = x.refresh_key_id)
    (l : List RefreshKey) :
    (l.map g).find? (fun k => k.refresh_key_id = key_id) =
      (l.find? (fun k => k.refresh_key_id = key_id)).map g := by
  induction l with
  | nil => rfl
  | cons y t ih =>
    by_cases hy : y.refresh_key_id = key_id
    · have hgy : ((g y).refresh_key_id = key_id) := by rw [hgid y]; exact hy
      rw [List.map_cons, List.find?_cons_of_pos _ (by simpa using hgy),
        List.find?_cons_of_pos _ (by simpa using hy)]
      rfl
    · have hgy : ¬ ((g y).refresh_key_id = key_id) := by rw [hgid y]; exact hy
      rw [List.map_cons, List.find?_cons_of_neg _ (by simpa using hgy),
        List.find?_cons_of_neg _ (by simpa using hy), ih]

/-- **C8, idempotent revoke** (spec §4.5 `revoke_by_id`, §8 "Idempotent
revoke"): `expire_refresh_key_by_id` on a missing or already-revoked row is
a no-op that never raises; calling it twice in a row (at any two times) has
the same durable effect as calling it once; and no writer of the ledger ever
clears an existing row's `revoked` flag. -/
theorem idempotent_revoke :
    (∀ (key_id : Nat) (now : Int) (ledger : List RefreshKey),
      (ledger.find? (fun k => k.refresh_key_id = key_id) = none ∨
        ∃ res, ledger.find? (fun k => k.refresh_key_id = key_id) = some res ∧
          res.revoked = true) →
      expire_refresh_key_by_id key_id now ledger = ledger) ∧
    (∀ (key_id : Nat) (now now2 : Int) (ledger : List RefreshKey),
      expire_refresh_key_by_id key_id now2
          (expire_refresh_key_by_id key_id now ledger) =
        expire_refresh_key_by_id key_id now ledger) ∧
    (∀ (st st' : List RefreshKey), Step st st' →
      (st.map (fun k => k.refresh_key_id)).Nodup →
      ∀ k ∈ st, k.revoked = true →
      ∀ k' ∈ st', k'.refresh_key_id = k.refresh_key_id →
      k'.revoked = true) := by
  refine ⟨?_, ?_, ?_⟩
  · intro key_id now ledger h
    rcases h with h | ⟨res, hres, hrev⟩
    · simp only [expire_refresh_key_by_id, h]
    · simp only [expire_refresh_key_by_id, hres, if_pos hrev]
  · intro key_id now now2 ledger
    cases hfind : ledger.find? (fun k => k.refresh_key_id = key_id) with
    | none => simp only [expire_refresh_key_by_id, hfind]
    | some res =>
      by_cases hrev : res.revoked = true
      · simp only [expire_refresh_key_by_id, hfind, if_pos hrev]
      · have hres_id : res.refresh_key_id = key_id := by
          simpa using List.find?_some hfind
        have hgid : ∀ x : RefreshKey,
            ((fun k : RefreshKey =>
              if k.refresh_key_id = key_id then
                { k with last_used := now, revoked := true }
              else k) x).refresh_key_id = x.refresh_key_id := by
          intro x
          dsimp only
          split <;> rfl
        have hfind2 :
            (ledger.map (fun k : RefreshKey =>
              if k.refresh_key_id = key_id then
                { k with last_used := now, revoked := true }
              else k)).find? (fun k => k.refresh_key_id = key_id) =
            some (if res.refresh_key_id = key_id then
                { res with last_used := now, revoked := true }
              else res) := by
          rw [find?_map_id_pres key_id _ hgid, hfind]
          rfl
        have hrev2 : (if res.refresh_key_id = key_id then
            { res with last_used := now, revoked := true }
          else res).revoked = true := by
          rw [if_pos hres_id]
        simp only [expire_refresh_key_by_id, hfind, if_neg hrev, hfind2,
          if_pos hrev2]
  · intro st st' hs hnd k hk hkrev k' hk' hid
    exact step_preserves_revoked hs hnd hk hkrev hk' hid

/-- Witness for C8: a concrete no-op on the empty ledger, a concrete
second call that changes nothing, and a concrete revoked row that stays
revoked across a revocation step. -/
theorem idempotent_revoke_witness :
    expire_refresh_key_by_id 5 0 [] = [] ∧
    expire_refresh_key_by_id 5 1 (expire_refresh_key_by_id 5 0 []) =
      expire_refresh_key_by_id 5 0 [] ∧
    ({ refresh_key_id := 3, user_id := 10, app_id := 4,
       hash_algorithm := "xxh3", hashed_content := "h", api_key := false,
       last_used := 0, used := 0, revoked := true, previous := none,
       created_at := 0, expires_at := 9 } : RefreshKey).revoked = true :=
  ⟨idempotent_revoke.1 5 0 [] (Or.inl rfl),
   idempotent_revoke.2.1 5 0 1 [],
   idempotent_revoke.2.2
     [{ refresh_key_id := 3, user_id := 10, app_id := 4,
        hash_algorithm := "xxh3", hashed_content := "h", api_key := false,
        last_used := 0, used := 0, revoked := true, previous := none,
        created_at := 0, expires_at := 9 }] _
     (Step.expire_by_id 3 0 _) (by decide)
     { refresh_key_id := 3, user_id := 10, app_id := 4,
       hash_algorithm := "xxh3", hashed_content := "h", api_key := false,
       last_used := 0, used := 0, revoked := true, previous := none,
       created_at := 0, expires_at := 9 } (by decide) rfl
     { refresh_key_id := 3, user_id := 10, app_id := 4,
       hash_algorithm := "xxh3", hashed_content := "h", api_key := false,
       last_used := 0, used := 0, revoked := true, previous := none,
       created_at := 0, expires_at := 9 } (by decide) rfl⟩

end Soauth

namespace Soauth

/-- A Python value occurring in a JWT payload dict (`soauth/core/tokens.py`).
The payloads this codebase signs carry strings, numbers/timestamps
(datetimes are serialized to integer Unix timestamps by the JWT encoder),
`UUID` objects (represented by their hex string) and sets (the `grants`
claim of access tokens); lists appear as the serialized form of sets. -/
inductive JValue where
  | str : String → JValue
  | int : Int → JValue
  | uuid : String → JValue
  | jlist : List JValue → JValue
  | jset : List JValue → JValue

/-- `filter_payload_item_for_serialization(p)` from `soauth/core/tokens.py`:
a `UUID` becomes its hex string, a `set` becomes a `list`, everything else
passes through. -/
def filter_payload_item_for_serialization : JValue → JValue
  | .uuid h => .str h
  | .jset l => .jlist l
  | p => p

/-- An `App` row's encrypted private signing key
(`soauth/core/cryptography.py`): Ed25519 key material is abstracted as a
`seed` (the key pair's identity) encrypted under `password`; the matching
public key carries the same seed.  A signature verifies under a public key
exactly when the seeds agree. -/
structure PrivateKeyMaterial where
  seed : Nat
  password : String

/-- An `App` row's serialized public verification key. -/
structure PublicKeyMaterial where
  seed : Nat

/-- `deserialize_private_key(private_key, key_password)` from
`soauth/core/cryptography.py`: fails with `EncryptionSerializationError`
when the password does not open the encrypted material. -/
def deserialize_private_key (private_key : PrivateKeyMaterial)
    (key_password : String) : Except String Nat :=
  if private_key.password = key_password then .ok private_key.seed
  else .error "EncryptionSerializationError"

/-- `match_key_pair_type_to_pyjwt_algorithm(key_pair_type)` from
`soauth/core/tokens.py`: only `Ed25519` is supported, mapped to PyJWT's
`EdDSA`; anything else raises `UnsupportedEncryptionMethod`. -/
def match_key_pair_type_to_pyjwt_algorithm (key_pair_type : String) :
    Except String String :=
  match key_pair_type with
  | "Ed25519" => .ok "EdDSA"
  | _ => .error "UnsupportedEncryptionMethod"

/-- A signed JWT: the unverified header carries the app id (`aid`) and the
algorithm; the body carries the serialized claims; `sig_seed` records which
key pair produced the signature (a signature verifies under a public key
exactly when that key's seed equals `sig_seed`). -/
structure Jwt where
  header_aid : String
  alg : String
  payload : List (String × JValue)
  sig_seed : Nat

/-- `sign_payload(app_id, key_password, private_key, key_pair_type,
payload)` from `soauth/core/tokens.py`: decrypts the private key, resolves
the PyJWT algorithm name, serializes each payload item through
`filter_payload_item_for_serialization`, and produces the signed token with
`aid` in the header. -/
def sign_payload (app_id : String) (key_password : String)
    (private_key : PrivateKeyMaterial) (key_pair_type : String)
    (payload : List (String × JValue)) : Except String Jwt := do
  let key ← deserialize_private_key private_key key_password
  let algorithm ← match_key_pair_type_to_pyjwt_algorithm key_pair_type
  .ok { header_aid := app_id, alg := algorithm,
        payload := payload.map
          (fun kv => (kv.1, filter_payload_item_for_serialization kv.2)),
        sig_seed := key }

/-- The PyJWT exceptions `jwt.decode` can raise that matter here.
`decodeError` stands for `DecodeError` and its subclass
`InvalidSignatureError`; `expiredSignature`, `immatureSignature` and
`invalidAlgorithm` stand for `ExpiredSignatureError`,
`ImmatureSignatureError` and `InvalidAlgorithmError`, which in PyJWT's
exception hierarchy are siblings of `DecodeError` under
`InvalidTokenError`, not subclasses of `DecodeError`. -/
inductive PyJwtError where
  | decodeError
  | expiredSignature
  | immatureSignature
  | invalidAlgorithm
deriving DecidableEq, Repr

/-- Dictionary lookup in a payload. -/
def payloadGet (p : List (String × JValue)) (key : String) : Option JValue :=
  (p.find? (fun kv => kv.1 = key)).map (fun kv => kv.2)

/-- PyJWT's `_validate_nbf` (with zero leeway): if the payload carries an
`nbf` claim that lies in the future (`nbf > now`), raise
`ImmatureSignatureError`; a non-numeric `nbf` raises `DecodeError`. -/
def validate_nbf (p : List (String × JValue)) (now : Int) :
    Except PyJwtError Unit :=
  match payloadGet p "nbf" with
  | none => .ok ()
  | some (.int n) => if n > now then .error .immatureSignature else .ok ()
  | some _ => .error .decodeError

/-- PyJWT's `_validate_exp` (with zero leeway): if the payload carries an
`exp` claim with `exp <= now`, raise `ExpiredSignatureError`; a non-numeric
`exp` raises `DecodeError`. -/
def validate_exp (p : List (String × JValue)) (now : Int) :
    Except PyJwtError Unit :=
  match payloadGet p "exp" with
  | none => .ok ()
  | some (.int e) => if e ≤ now then .error .expiredSignature else .ok ()
  | some _ => .error .decodeError

/-- PyJWT's `jwt.decode(jwt, key, algorithms)` at time `now`: rejects a
token whose header algorithm is not in the allow-list
(`InvalidAlgorithmError`), then verifies the signature against the supplied
key (`InvalidSignatureError`, a `DecodeError`, when it does not match), then
validates claims — `nbf` before `exp`, as in PyJWT's `_validate_claims`. -/
def jwt_decode (webtoken : Jwt) (key : PublicKeyMaterial)
    (algorithms : List String) (now : Int) :
    Except PyJwtError (List (String × JValue)) :=
  if webtoken.alg ∈ algorithms then
    if webtoken.sig_seed = key.seed then do
      validate_nbf webtoken.payload now
      validate_exp webtoken.payload now
      .ok webtoken.payload
    else .error .decodeError
  else .error .invalidAlgorithm

/-- The exceptions escaping `reconstruct_payload`: the module's own
`KeyExpiredError`/`KeyDecodeError`, plus library exceptions its
`except (jwt.DecodeError, EncryptionSerializationError)` clause does not
catch. -/
inductive TokenError where
  | keyExpired
  | keyDecode
  | immatureSignature
  | invalidAlgorithm
  | unsupportedMethod
deriving DecidableEq, Repr

/-- `reconstruct_payload(webtoken, public_key, key_pair_type)` from
`soauth/core/tokens.py`, at time `now`: resolves the algorithm
(`UnsupportedEncryptionMethod` escapes the `try` uncaught), calls
`jwt.decode`, converts `jwt.ExpiredSignatureError` to `KeyExpiredError` and
`jwt.DecodeError` (or a public-key `EncryptionSerializationError`) to
`KeyDecodeError`.  PyJWT's `ImmatureSignatureError` (not-yet-valid `nbf`)
and `InvalidAlgorithmError` are *not* subclasses of `jwt.DecodeError`, so
the `except` clause does not convert them and they propagate unchanged.
(`deserialize_public_key` on the stored key bytes is modelled as always
succeeding; its corrupt-material failure would be caught as
`KeyDecodeError`.) -/
def reconstruct_payload (webtoken : Jwt) (public_key : PublicKeyMaterial)
    (key_pair_type : String) (now : Int) :
    Except TokenError (List (String × JValue)) :=
  match match_key_pair_type_to_pyjwt_algorithm key_pair_type with
  | .error _ => .error .unsupportedMethod
  | .ok algorithm =>
    match jwt_decode webtoken public_key [algorithm] now with
    | .ok payload => .ok payload
    | .error .expiredSignature => .error .keyExpired
    | .error .decodeError => .error .keyDecode
    | .error .immatureSignature => .error .immatureSignature
    | .error .invalidAlgorithm => .error .invalidAlgorithm

/-- The reserved claim names managed centrally by
`build_payload_with_claims` (`soauth/core/tokens.py`): caller payloads may
not contain them. -/
def reservedClaims : List String := ["exp", "nbf", "iss", "aud", "iat", "uuid"]

end Soauth

namespace Soauth

/-- A map whose function fixes every member is the identity. -/
lemma list_map_id_of {α : Type} (f : α → α) (l : List α)
    (h : ∀ x ∈ l, f x = x) : l.map f = l := by
  induction l with
  | nil => rfl
  | cons y t ih =>
    rw [List.map_cons, h y (List.mem_cons_self y t),
      ih (fun x hx => h x (List.mem_cons_of_mem y hx))]

/-- A payload none of whose keys is `key` has no `key` entry. -/
lemma payloadGet_none (p : List (String × JValue)) (key : String)
    (h : ∀ kv ∈ p, kv.1 ≠ key) : payloadGet p key = none := by
  unfold payloadGet
  rw [List.find?_eq_none.mpr]
  · rfl
  · intro kv hkv
    simpa using h kv hkv

/-- **C4 counterexample**: the round trip is not the identity on claim sets
containing a Python `set` value — signing serializes the set to a list
(`filter_payload_item_for_serialization`), and verification returns the
list, not the original set.  The claim set `{"grants": {"admin"}}` contains
no reserved key, yet `verify(sign(claims))` returns
`{"grants": ["admin"]}` ≠ `claims`. -/
theorem roundtrip_set_counterexample :
    sign_payload "app" "pw" ⟨42, "pw"⟩ "Ed25519"
        [("grants", JValue.jset [JValue.str "admin"])] =
      .ok ⟨"app", "EdDSA",
        [("grants", JValue.jlist [JValue.str "admin"])], 42⟩ ∧
    reconstruct_payload
        ⟨"app", "EdDSA", [("grants", JValue.jlist [JValue.str "admin"])], 42⟩
        ⟨42⟩ "Ed25519" 0 =
      .ok [("grants", JValue.jlist [JValue.str "admin"])] ∧
    ([("grants", JValue.jlist [JValue.str "admin"])] :
        List (String × JValue)) ≠
      [("grants", JValue.jset [JValue.str "admin"])] := by
  refine ⟨rfl, rfl, ?_⟩
  intro h
  injection h with h1 h2
  injection h1 with ha hb
  exact JValue.noConfusion hb

/-- **C4, amended** (spec §8 "Round trip"): verifying a token signed with
the same app's key pair returns the *serialized* claims — equal to the
original claim set whenever every value is fixed by
`filter_payload_item_for_serialization` (no `UUID` or `set` values) — and
verifying with a different app's public key (a different key pair) always
fails with `KeyDecodeError`. -/
theorem sign_verify_roundtrip (aid pw : String) (priv : PrivateKeyMaterial)
    (pub pub2 : PublicKeyMaterial) (payload : List (String × JValue))
    (now : Int)
    (hpw : priv.password = pw)
    (hpub : pub.seed = priv.seed)
    (hres : ∀ kv ∈ payload, kv.1 ∉ reservedClaims)
    (hser : ∀ kv ∈ payload,
      filter_payload_item_for_serialization kv.2 = kv.2) :
    ∃ tok, sign_payload aid pw priv "Ed25519" payload = .ok tok ∧
      reconstruct_payload tok pub "Ed25519" now = .ok payload ∧
      (pub2.seed ≠ priv.seed →
        reconstruct_payload tok pub2 "Ed25519" now = .error .keyDecode) := by
  have hmap : payload.map
      (fun kv => (kv.1, filter_payload_item_for_serialization kv.2)) =
      payload := by
    apply list_map_id_of
    intro kv hkv
    rw [hser kv hkv]
  have hsign : sign_payload aid pw priv "Ed25519" payload =
      .ok ⟨aid, "EdDSA", payload, priv.seed⟩ := by
    unfold sign_payload deserialize_private_key
    rw [if_pos hpw]
    simp only [match_key_pair_type_to_pyjwt_algorithm, hmap]
    rfl
  have hnbf : payloadGet payload "nbf" = none := by
    apply payloadGet_none
    intro kv hkv
    have h := hres kv hkv
    simp [reservedClaims] at h
    exact h.2.1
  have hexp : payloadGet payload "exp" = none := by
    apply payloadGet_none
    intro kv hkv
    have h := hres kv hkv
    simp [reservedClaims] at h
    exact h.1
  refine ⟨_, hsign, ?_, ?_⟩
  · simp only [reconstruct_payload, match_key_pair_type_to_pyjwt_algorithm,
      jwt_decode, hpub, validate_nbf, validate_exp, hnbf, hexp,
      List.mem_singleton, if_true, eq_self_iff_true, if_pos]
    rfl
  · intro hne
    have hcond : ¬ (priv.seed = pub2.seed) := fun h => hne h.symm
    simp [reconstruct_payload, match_key_pair_type_to_pyjwt_algorithm,
      jwt_decode, hcond]

/-- Witness for C4 at a concrete string-valued claim set and two distinct
key pairs. -/
theorem sign_verify_roundtrip_witness :
    ∃ tok, sign_payload "app1" "pw" ⟨1, "pw"⟩ "Ed25519"
        [("k", JValue.str "v")] = .ok tok ∧
      reconstruct_payload tok ⟨1⟩ "Ed25519" 0 = .ok [("k", JValue.str "v")] ∧
      ((⟨2⟩ : PublicKeyMaterial).seed ≠
          (⟨1, "pw"⟩ : PrivateKeyMaterial).seed →
        reconstruct_payload tok ⟨2⟩ "Ed25519" 0 = .error .keyDecode) :=
  sign_verify_roundtrip "app1" "pw" ⟨1, "pw"⟩ ⟨1⟩ ⟨2⟩
    [("k", JValue.str "v")] 0 rfl rfl
    (by
      intro kv hkv
      rw [List.mem_singleton] at hkv
      subst hkv
      decide)
    (by
      intro kv hkv
      rw [List.mem_singleton] at hkv
      subst hkv
      rfl)

end Soauth

namespace Soauth

/-- **C5 counterexample**: a well-signed token that is not yet valid
(`nbf = 10` with `now = 0`) makes `reconstruct_payload` raise PyJWT's
`ImmatureSignatureError` — which the `except (jwt.DecodeError, ...)` clause
does not convert — not the claimed `KeyDecodeError`. -/
theorem verify_nbf_counterexample :
    reconstruct_payload ⟨"app", "EdDSA", [("nbf", JValue.int 10)], 7⟩ ⟨7⟩
        "Ed25519" 0 = .error .immatureSignature ∧
    (Except.error TokenError.immatureSignature :
        Except TokenError (List (String × JValue))) ≠
      .error .keyDecode := by
  refine ⟨rfl, ?_⟩
  intro h
  injection h with h1
  exact TokenError.noConfusion h1

/-- **C5, amended** (spec §4.2 `verify`, §8 "Expiry boundary"): with a
matching algorithm and key pair, `reconstruct_payload` fails with
`KeyExpiredError` exactly when the token's `exp` is ≤ `now` (so a token
with `exp = now` fails, and one second before `exp` it succeeds); a
signature failure gives the distinguishable `KeyDecodeError`; but a
not-yet-valid token (`now < nbf`) raises PyJWT's `ImmatureSignatureError`,
which is not converted to `KeyDecodeError`. -/
theorem verify_error_taxonomy :
    (∀ (tok : Jwt) (pub : PublicKeyMaterial) (now e : Int),
      tok.alg = "EdDSA" → tok.sig_seed = pub.seed →
      payloadGet tok.payload "nbf" = none →
      payloadGet tok.payload "exp" = some (.int e) → e ≤ now →
      reconstruct_payload tok pub "Ed25519" now = .error .keyExpired) ∧
    (∀ (tok : Jwt) (pub : PublicKeyMaterial) (now e : Int),
      tok.alg = "EdDSA" → tok.sig_seed = pub.seed →
      payloadGet tok.payload "nbf" = none →
      payloadGet tok.payload "exp" = some (.int e) → now < e →
      reconstruct_payload tok pub "Ed25519" now = .ok tok.payload) ∧
    (∀ (tok : Jwt) (pub : PublicKeyMaterial) (now : Int),
      tok.alg = "EdDSA" → tok.sig_seed ≠ pub.seed →
      reconstruct_payload tok pub "Ed25519" now = .error .keyDecode) ∧
    (∀ (tok : Jwt) (pub : PublicKeyMaterial) (now n : Int),
      tok.alg = "EdDSA" → tok.sig_seed = pub.seed →
      payloadGet tok.payload "nbf" = some (.int n) → now < n →
      reconstruct_payload tok pub "Ed25519" now =
        .error .immatureSignature) := by
  refine ⟨?_, ?_, ?_, ?_⟩
  · intro tok pub now e halg hsig hnbf hexp hle
    simp [reconstruct_payload, match_key_pair_type_to_pyjwt_algorithm,
      jwt_decode, validate_nbf, validate_exp, halg, hsig, hnbf, hexp, hle]
    rfl
  · intro tok pub now e halg hsig hnbf hexp hlt
    have h2 : ¬ e ≤ now := by omega
    simp [reconstruct_payload, match_key_pair_type_to_pyjwt_algorithm,
      jwt_decode, validate_nbf, validate_exp, halg, hsig, hnbf, hexp, h2]
    rfl
  · intro tok pub now halg hsig
    simp [reconstruct_payload, match_key_pair_type_to_pyjwt_algorithm,
      jwt_decode, halg, hsig]
  · intro tok pub now n halg hsig hnbf hlt
    simp [reconstruct_payload, match_key_pair_type_to_pyjwt_algorithm,
      jwt_decode, validate_nbf, halg, hsig, hnbf, hlt]
    rfl

/-- Witness for C5 at concrete tokens: expiry exactly at `now` fails
expired, one second earlier succeeds, a wrong key fails `KeyDecodeError`,
and a future `nbf` raises `ImmatureSignatureError`. -/
theorem verify_error_taxonomy_witness :
    reconstruct_payload ⟨"a", "EdDSA", [("exp", JValue.int 5)], 3⟩ ⟨3⟩
        "Ed25519" 5 = .error .keyExpired ∧
    reconstruct_payload ⟨"a", "EdDSA", [("exp", JValue.int 5)], 3⟩ ⟨3⟩
        "Ed25519" 4 = .ok [("exp", JValue.int 5)] ∧
    reconstruct_payload ⟨"a", "EdDSA", [("exp", JValue.int 5)], 3⟩ ⟨9⟩
        "Ed25519" 4 = .error .keyDecode ∧
    reconstruct_payload ⟨"a", "EdDSA", [("nbf", JValue.int 10)], 3⟩ ⟨3⟩
        "Ed25519" 0 = .error .immatureSignature :=
  ⟨verify_error_taxonomy.1 _ _ 5 5 rfl rfl rfl rfl (le_refl 5),
   verify_error_taxonomy.2.1 _ _ 4 5 rfl rfl rfl rfl (by omega),
   verify_error_taxonomy.2.2.1 _ _ 4 rfl (by decide),
   verify_error_taxonomy.2.2.2 _ _ 0 10 rfl rfl rfl (by omega)⟩

end Soauth

namespace Soauth

/-- A URL, reduced to what `build_redirect` inspects via
`urlparse(...).hostname`: its host, plus the rest of the URL. -/
structure Url where
  host : String
  rest : String
deriving DecidableEq, Repr

/-- One row of the `loginrequest` table (`soauth/database/login.py`):
`login_request_id` is the primary key, `secret_code` the single-use
exchange code generated at creation, `stale` defaults to false. -/
structure LoginRequest where
  login_request_id : Nat
  app_id : Nat
  user_id : Option Nat
  redirect_to : Option Url
  initiated_at : Int
  completed_at : Option Int
  secret_code : String
  stale : Bool
deriving DecidableEq, Repr

/-- The fields of an `App` row (`soauth/database/app.py`) that the login
handshake reads: its id, its current client secret, and its domain. -/
structure LoginApp where
  app_id : Nat
  client_secret : String
  domain : Url
deriving DecidableEq, Repr

/-- `login_service.read(login_request_id, conn)` from
`soauth/service/login.py` (the handshake's `resume`): raises
`StaleRequestError` when the request is missing or marked stale. -/
def login_read (login_request_id : Nat) (requests : List LoginRequest) :
    Except String LoginRequest :=
  match requests.find? (fun r => r.login_request_id = login_request_id) with
  | none => .error "Login request not found or stale"
  | some login_request =>
    if login_request.stale = true then
      .error "Login request not found or stale"
    else .ok login_request

/-- `login_service.read_by_code(code, secret, conn)` from
`soauth/service/login.py`: finds the request by its `secret_code`
(`StaleRequestError` when absent), reads the owning app
(`app_service.read_by_id`; `AppNotFound` when absent, which the endpoint
does not catch — the foreign key guarantees presence), and raises
`StaleRequestError` when the supplied secret differs from the app's client
secret.  It performs no staleness, completion, or single-use check and does
not modify the row. -/
def read_by_code (code secret : String) (requests : List LoginRequest)
    (apps : List LoginApp) : Except String LoginRequest :=
  match requests.find? (fun r => r.secret_code = code) with
  | none => .error "Secret key not found"
  | some login_request =>
    match apps.find? (fun a => a.app_id = login_request.app_id) with
    | none => .error "AppNotFound"
    | some app =>
      if app.client_secret ≠ secret then .error "Client secret incorrect"
      else .ok login_request

/-- `build_redirect(user, app, request)` from `soauth/service/login.py`:
the redirect target defaults to the app's domain; raises
`RedirectInvalidError` when the target's host differs from the app
domain's host. -/
def build_redirect (app : LoginApp) (request : LoginRequest) :
    Except String Url :=
  let redirect_to := request.redirect_to.getD app.domain
  if app.domain.host ≠ redirect_to.host then
    .error "RedirectInvalid"
  else .ok redirect_to

/-- `login_service.complete(login_request, user, conn, log)` from
`soauth/service/login.py`: raises `StaleRequestError` when the request is
stale, reads the owning app, validates and stores the redirect, then stamps
`completed_at = now` and the principal id.  Nothing invalidates
`secret_code` and nothing checks or is gated on `completed_at`. -/
def complete (login_request : LoginRequest) (user_id : Nat) (now : Int)
    (apps : List LoginApp) : Except String (Url × LoginRequest) :=
  if login_request.stale = true then
    .error "Login request not found or stale"
  else
    match apps.find? (fun a => a.app_id = login_request.app_id) with
    | none => .error "AppNotFound"
    | some app =>
      match build_redirect app login_request with
      | .error e => .error e
      | .ok redirect =>
        .ok (redirect,
          { login_request with
              redirect_to := some redirect
              completed_at := some now
              user_id := some user_id })

/-- The `POST /code/{app_id}` endpoint (`code` in `soauth/api/login.py`):
`read_by_code`, then `user_service.read_by_id(login_request.user_id)`
(`users` is the set of existing user ids; both failures become 401), a
path/app-id mismatch that is only logged (never rejected), token minting
via `flow_service.primary` — which, for an existing user and app, always
succeeds and does not touch the login-request table — and finally
`login_service.complete`, whose updated row is persisted.  On any caught
error the handler raises 401 and the transaction leaves the table
unchanged. -/
def api_code (code secret : String) (path_app_id : Nat) (now : Int)
    (requests : List LoginRequest) (apps : List LoginApp)
    (users : List Nat) : Except String (Url × List LoginRequest) :=
  match read_by_code code secret requests apps with
  | .error _ => .error "401 Unauthorized"
  | .ok login_request =>
    match login_request.user_id with
    | none => .error "401 Unauthorized"
    | some uid =>
      if uid ∈ users then
        match complete login_request uid now apps with
        | .error _ => .error "401 Unauthorized"
        | .ok (redirect, updated) =>
          .ok (redirect,
            requests.map (fun r =>
              if r.login_request_id = login_request.login_request_id then
                updated
              else r))
      else .error "401 Unauthorized"

/-- `expire_stale_requests(settings, conn)` from `soauth/service/login.py`
(the handshake's `sweep`), with `retention = settings.login_record_length`
and `stale_after = settings.stale_login_expiry`.  The DELETE removes
requests initiated before the retention window.  The UPDATE's WHERE clause
is written `LoginRequest.stale is False, LoginRequest.completed_at is None,
LoginRequest.initiated_at < stale_before`: the first two compare SQLAlchemy
`Column` objects with Python `is`, which evaluates to the plain boolean
`False` (a Column is never the `False`/`None` singleton), so the clause is
`WHERE false AND false AND initiated_at < stale_before` and the UPDATE
matches no row. -/
def expire_stale_requests (now retention stale_after : Int)
    (requests : List LoginRequest) : List LoginRequest :=
  let delete_before := now - retention
  let stale_before := now - stale_after
  let afterDelete :=
    requests.filter (fun r => ¬ (r.initiated_at < delete_before))
  afterDelete.map (fun r =>
    if False ∧ False ∧ r.initiated_at < stale_before then
      { r with stale := true }
    else r)

end Soauth

namespace Soauth

/-- **C6, exchange-code replay** (spec §3 Login Request invariant (a),
§4.7 `exchange_by_code`, §8 "Handshake end-to-end"): the code violates the
single-use property.  After a successful `/code` exchange — which stamps
`completed_at` but neither invalidates `secret_code`, nor marks the request
stale, nor checks `completed_at` anywhere — a second call with the same
code and the correct client secret succeeds again. -/
theorem exchange_code_replay :
    ∃ redirect1 requests1 redirect2 requests2,
      api_code "code123" "sekret" 10 100
        [{ login_request_id := 1, app_id := 10, user_id := some 5,
           redirect_to := none, initiated_at := 0, completed_at := none,
           secret_code := "code123", stale := false }]
        [{ app_id := 10, client_secret := "sekret",
           domain := ⟨"example.com", "https://example.com"⟩ }]
        [5] = .ok (redirect1, requests1) ∧
      api_code "code123" "sekret" 10 200 requests1
        [{ app_id := 10, client_secret := "sekret",
           domain := ⟨"example.com", "https://example.com"⟩ }]
        [5] = .ok (redirect2, requests2) :=
  ⟨_, _, _, _, rfl, rfl⟩

/-- **C7, staleness sweep** (spec §4.7 `sweep`, §8 "Staleness sweep"): the
DELETE leg works — a request initiated before the retention window is gone
— but the stale-marking UPDATE matches no row (its WHERE clause compares
Column objects with Python `is`), so a not-yet-completed request older than
`stale_after` but within retention keeps `stale = false` and is *accepted*,
not rejected, by a subsequent `resume` (`login_service.read`). -/
theorem staleness_sweep_bug :
    expire_stale_requests 100 1000 10
        [{ login_request_id := 1, app_id := 10, user_id := none,
           redirect_to := none, initiated_at := 0, completed_at := none,
           secret_code := "c1", stale := false },
         { login_request_id := 2, app_id := 10, user_id := none,
           redirect_to := none, initiated_at := -2000, completed_at := none,
           secret_code := "c2", stale := false }] =
      [{ login_request_id := 1, app_id := 10, user_id := none,
         redirect_to := none, initiated_at := 0, completed_at := none,
         secret_code := "c1", stale := false }] ∧
    login_read 1
        (expire_stale_requests 100 1000 10
          [{ login_request_id := 1, app_id := 10, user_id := none,
             redirect_to := none, initiated_at := 0, completed_at := none,
             secret_code := "c1", stale := false },
           { login_request_id := 2, app_id := 10, user_id := none,
             redirect_to := none, initiated_at := -2000, completed_at := none,
             secret_code := "c2", stale := false }]) =
      .ok { login_request_id := 1, app_id := 10, user_id := none,
            redirect_to := none, initiated_at := 0, completed_at := none,
            secret_code := "c1", stale := false } :=
  ⟨rfl, rfl⟩

end Soauth

namespace Soauth

/-- Python's `str.split()` with no arguments, as used by
`get_effective_grants` (`self.grants.split()`): splits on runs of
whitespace and never yields empty strings. -/
def splitWsAux : List Char → List Char → List String
  | [], acc => if acc.isEmpty then [] else [String.mk acc.reverse]
  | c :: cs, acc =>
    if c = ' ' ∨ c = '\t' ∨ c = '\n' ∨ c = '\r' then
      (if acc.isEmpty then [] else [String.mk acc.reverse]) ++ splitWsAux cs []
    else splitWsAux cs (c :: acc)

/-- Python `s.split()` (whitespace split, empties dropped). -/
def pySplit (s : String) : List String := splitWsAux s.data []

/-- A `Group` row (`soauth/database/group.py`): its grants are stored as a
single space-separated string. -/
structure Group where
  group_name : String
  grants : String
deriving DecidableEq, Repr

/-- A `User` row (`soauth/database/user.py`) with its joined group
memberships: grants are a space-separated string, `groups` the groups the
user belongs to (via `GroupMembership`). -/
structure User where
  user_name : String
  grants : String
  groups : List Group
deriving DecidableEq, Repr

/-- `User.get_effective_grants(include_groups=True)` from
`soauth/database/user.py`: starts from the empty set, adds
`{x for x in self.grants.split() if x}` when `self.grants` is truthy
(non-empty), and, when `include_groups`, folds in each group's split grant
set under the same truthiness guard.  (`split()` already drops empties, so
the `if x` filter is subsumed.) -/
def get_effective_grants (u : User) (include_groups : Bool) : Finset String :=
  let all_grants : Finset String := ∅
  let all_grants :=
    if u.grants ≠ "" then all_grants ∪ (pySplit u.grants).toFinset
    else all_grants
  if include_groups then
    u.groups.foldl
      (fun acc g =>
        if g.grants ≠ "" then acc ∪ (pySplit g.grants).toFinset else acc)
      all_grants
  else all_grants

/-- Membership in the group fold: the accumulated set plus each group's
split grants. -/
lemma foldl_group_grants_mem (x : String) (base : Finset String)
    (groups : List Group) :
    x ∈ groups.foldl
        (fun acc g =>
          if g.grants ≠ "" then acc ∪ (pySplit g.grants).toFinset else acc)
        base ↔
      x ∈ base ∨ ∃ g ∈ groups, x ∈ pySplit g.grants := by
  induction groups generalizing base with
  | nil => simp
  | cons g t ih =>
    rw [List.foldl_cons, ih]
    by_cases hg : g.grants ≠ ""
    · rw [if_pos hg]
      simp only [Finset.mem_union, List.mem_toFinset, List.mem_cons]
      constructor
      · rintro ((hb | hgx) | ⟨g', hg', hx⟩)
        · exact Or.inl hb
        · exact Or.inr ⟨g, Or.inl rfl, hgx⟩
        · exact Or.inr ⟨g', Or.inr hg', hx⟩
      · rintro (hb | ⟨g', (rfl | hg'), hx⟩)
        · exact Or.inl (Or.inl hb)
        · exact Or.inl (Or.inr hx)
        · exact Or.inr ⟨g', hg', hx⟩
    · rw [if_neg hg]
      have hempty : pySplit g.grants = [] := by
        rw [not_not.mp hg]
        rfl
      simp only [List.mem_cons]
      constructor
      · rintro (hb | ⟨g', hg', hx⟩)
        · exact Or.inl hb
        · exact Or.inr ⟨g', Or.inr hg', hx⟩
      · rintro (hb | ⟨g', (rfl | hg'), hx⟩)
        · exact Or.inl hb
        · rw [hempty] at hx
          cases hx
        · exact Or.inr ⟨g', hg', hx⟩

/-- **C9, grant union** (spec §4.4 `effective_grants`, §8 "Grant union"):
`get_effective_grants(include_groups=true)` is the union of the
principal's direct split grants and the split grants of every group the
principal belongs to; concretely, direct grant `a` plus membership in a
group with grants `b c` resolves to `{a, b, c}`, and with the membership
removed it resolves to `{a}`. -/
theorem effective_grants_union :
    (∀ (u : User) (x : String),
      x ∈ get_effective_grants u true ↔
        (x ∈ pySplit u.grants ∨ ∃ g ∈ u.groups, x ∈ pySplit g.grants)) ∧
    get_effective_grants ⟨"P", "a", [⟨"G", "b c"⟩]⟩ true =
      ({"a", "b", "c"} : Finset String) ∧
    get_effective_grants ⟨"P", "a", []⟩ true = ({"a"} : Finset String) := by
  refine ⟨?_, by decide, by decide⟩
  intro u x
  unfold get_effective_grants
  rw [if_pos rfl]
  rw [foldl_group_grants_mem]
  by_cases hu : u.grants ≠ ""
  · rw [if_pos hu]
    simp
  · rw [if_neg hu]
    have hempty : pySplit u.grants = [] := by
      rw [not_not.mp hu]
      rfl
    rw [hempty]
    simp

/-- Witness for C9: the general union characterization evaluated at the
concrete principal of the spec's example. -/
theorem effective_grants_union_witness :
    "b" ∈ get_effective_grants ⟨"P", "a", [⟨"G", "b c"⟩]⟩ true ↔
      ("b" ∈ pySplit "a" ∨
        ∃ g ∈ [(⟨"G", "b c"⟩ : Group)], "b" ∈ pySplit g.grants) :=
  effective_grants_union.1 ⟨"P", "a", [⟨"G", "b c"⟩]⟩ "b"

end Soauth

namespace Soauth

/-- `match_name_to_algorithm(name)` from `soauth/core/hashing.py`: only
`xxh3` is supported (mapped to `xxhash.xxh3_64`); anything else raises
`UnsupportedHashAlgorithm`. -/
def match_name_to_algorithm (name : String) : Except String String :=
  match name with
  | "xxh3" => .ok "xxh3_64"
  | _ => .error "UnsupportedHashAlgorithm"

/-- The external `xxhash.xxh3_64(content).hexdigest()` digest, abstracted:
a deterministic one-way function whose concrete value no claim depends on
(stand-in kept computable). -/
def xxh3_64_hexdigest (content : String) : String :=
  "xxh3_64:" ++ content

/-- `checksum(content, hash_algorithm)` from `soauth/core/hashing.py`:
resolves the algorithm by name and returns the hex digest of the content. -/
def checksum (content : String) (hash_algorithm : String) :
    Except String String :=
  match match_name_to_algorithm hash_algorithm with
  | .error e => .error e
  | .ok _ => .ok (xxh3_64_hexdigest content)

/-- Python's builtin `hash(object)`: it takes exactly one positional
argument and accepts **no keyword arguments** — `hash(content=...,
hash_algorithm=...)` raises `TypeError` unconditionally, before any
hashing happens.  `keyword` lists the keyword-argument names of the call
site. -/
def python_builtin_hash (positional : List String)
    (keyword : List String) : Except String Int :=
  if keyword ≠ [] then .error "TypeError"
  else
    match positional with
    | [x] => .ok (x.length : Int)
    | _ => .error "TypeError"

/-- `compare(content, compare_to, hash_algorithm)` from
`soauth/core/hashing.py`: its body is
`new_hash = hash(content=content, hash_algorithm=hash_algorithm)` —
Python's builtin `hash`, called with keyword arguments, not this module's
`checksum` — followed by `compare_to == new_hash`.  (Had the call
succeeded, comparing the string `compare_to` with an integer would yield
`False` in Python.) -/
def compare (content : String) (compare_to : String)
    (hash_algorithm : String) : Except String Bool :=
  match python_builtin_hash [] ["content", "hash_algorithm"] with
  | .error e => .error e
  | .ok _ => .ok false

/-- **C10** (implicit claim from `soauth/core/hashing.py` lines 35–42):
for every content, stored checksum, and algorithm name, `compare` raises
`TypeError` — the builtin `hash` rejects its keyword arguments — and never
returns a comparison result. -/
theorem compare_always_type_error :
    ∀ (content compare_to hash_algorithm : String),
      compare content compare_to hash_algorithm = .error "TypeError" := by
  intro content compare_to hash_algorithm
  rfl

end Soauth
